import Mathlib

/-!
Verification of the RESP value codec, command parser and command actor of the
codecrafters redis server (pazustep/codecrafters-redis-rust).

Byte streams are modelled as `List Nat` (each element a byte value `< 256`).
Rust `String` payloads are modelled by their UTF-8 byte sequences, so
`str::len` (a byte count) is `List.length`.

The definitions in the first part of the file are shallow embeddings of the
source files `src/protocol/value/{mod,writer,reader}.rs`,
`src/protocol/command/{mod,parse,format}.rs`, `src/server/mod.rs`,
`src/server/replication.rs` and `src/listener.rs`.  Definitions that model
behaviour the spec describes but that is absent from the source are marked
`Modelled from the spec:` in their doc comment.
-/

/-- ASCII bytes of a Lean string literal (used only with ASCII literals). -/
def asc (s : String) : List Nat :=
  s.data.map Char.toNat

/-- Carriage return / line feed bytes. -/
def crlf : List Nat := [13, 10]

/-- Fuel-driven digit emitter (structural, so the kernel can evaluate it). -/
def natDecBytesAux : Nat → Nat → List Nat
  | 0, _ => []
  | fuel + 1, n =>
    if n < 10 then [48 + n]
    else natDecBytesAux fuel (n / 10) ++ [48 + n % 10]

/-- Decimal digit bytes of a natural number, most significant first.  Models
Rust's `Display for usize`/`u64` (no sign, no leading zeros, `"0"` for 0). -/
def natDecBytes (n : Nat) : List Nat :=
  natDecBytesAux (n + 1) n

/-- Decimal byte representation of an integer; models Rust's `Display for i64`. -/
def intDecBytes (i : Int) : List Nat :=
  if i < 0 then 45 :: natDecBytes i.natAbs else natDecBytes i.toNat

/-- Number of decimal digits, i.e. Rust's `n.to_string().len()`. -/
def numDigits (n : Nat) : Nat :=
  (natDecBytes n).length

/-- `Value` from `src/protocol/value/mod.rs`: the RESP value tagged union.
Every payload-carrying variant stores the byte size recorded by the code. -/
inductive Value where
  | simpleString : Nat → List Nat → Value
  | simpleError : Nat → List Nat → Value
  | integer : Nat → Int → Value
  | bulkString : Nat → List Nat → Value
  | bulkBytes : Nat → List Nat → Value
  | array : Nat → List Value → Value
  | nullBulkString : Value
  | nullArray : Value

namespace Value

/-- `Value::size` from `src/protocol/value/mod.rs`. -/
def size : Value → Nat
  | simpleString s _ => s
  | simpleError s _ => s
  | integer s _ => s
  | bulkString s _ => s
  | bulkBytes s _ => s
  | array s _ => s
  | nullBulkString => 5
  | nullArray => 5

/-- Constructor `Value::simple_string`: the stored size is
`value.len().to_string().len() + 3` exactly as in the source. -/
def simple_string (value : List Nat) : Value :=
  simpleString (numDigits value.length + 3) value

/-- Constructor `Value::simple_error`. -/
def simple_error (value : List Nat) : Value :=
  simpleError (numDigits value.length + 3) value

/-- Constructor `Value::bulk_string_from_bytes`. -/
def bulk_string_from_bytes (value : List Nat) : Value :=
  bulkString (numDigits value.length + 3) value

/-- Constructor `Value::bulk_string` (a `&str` is its UTF-8 bytes). -/
def bulk_string (value : List Nat) : Value :=
  bulk_string_from_bytes value

/-- Constructor `Value::integer`: stored size is `value.to_string().len()`. -/
def int (value : Int) : Value :=
  integer (intDecBytes value).length value

/-- `Value::ok`. -/
def ok : Value :=
  simple_string (asc "OK")

end Value

/-- `build_command` from `src/protocol/value/mod.rs`: an array of bulk strings
whose stored size is `len.to_string().len() + 3 + parts_size`. -/
def build_command (command : List Nat) (args : List (List Nat)) : Value :=
  let cmd := Value.bulk_string command
  let parts := cmd :: args.map Value.bulk_string_from_bytes
  let parts_size := (parts.map Value.size).sum
  Value.array (numDigits parts.length + 3 + parts_size) parts

/-- `Value::command` / `Value::command_str` (both defer to `build_command`). -/
def Value.command (command : List Nat) (args : List (List Nat)) : Value :=
  build_command command args

mutual

/-- `ValueWriter::write` from `src/protocol/value/writer.rs`, as the byte
sequence emitted for one value. -/
def writeValue : Value → List Nat
  | Value.simpleString _ v => 43 :: v ++ crlf
  | Value.simpleError _ v => 45 :: v ++ crlf
  | Value.integer _ i => 58 :: intDecBytes i ++ crlf
  | Value.bulkString _ b => 36 :: natDecBytes b.length ++ crlf ++ b ++ crlf
  | Value.bulkBytes _ b => 36 :: natDecBytes b.length ++ crlf ++ b
  | Value.array _ vs => 42 :: natDecBytes vs.length ++ crlf ++ writeValues vs
  | Value.nullBulkString => asc "$-1" ++ crlf
  | Value.nullArray => asc "*-1" ++ crlf

/-- The loop in `ValueWriter::write_array`: children written in order. -/
def writeValues : List Value → List Nat
  | [] => []
  | v :: vs => writeValue v ++ writeValues vs

end

/-- Index of the first CR LF pair of a byte list, pairs taken inside the list
(this is the scan `for i in 0..bytes_read - 1` of `read_line_bytes`). -/
def findCRLF : List Nat → Option Nat
  | [] => none
  | [_] => none
  | a :: b :: rest =>
    if a = 13 ∧ b = 10 then some 0
    else (findCRLF (b :: rest)).map (· + 1)

/-- `ValueReader::read_line_bytes` when the whole remaining input arrives in a
single `fill_buf` (as when reading from an in-memory buffer): the bytes before
the first CR LF, the count of consumed bytes (terminator included), and the
unconsumed rest.  `none` models the `UnexpectedEof` error. -/
def readLineFlat (s : List Nat) : Option (Nat × List Nat × List Nat) :=
  (findCRLF s).map fun i => (i + 2, s.take i, s.drop (i + 2))

/-- A UTF-8 continuation byte (`0x80..=0xBF`). -/
def utf8Cont (b : Nat) : Bool :=
  128 ≤ b && b ≤ 191

/-- Validity of a byte sequence as UTF-8; models Rust's `String::from_utf8`
succeeding (RFC 3629: no overlong forms, no surrogates, max U+10FFFF). -/
def utf8Valid : List Nat → Bool
  | [] => true
  | b :: rest =>
    if b ≤ 0x7F then utf8Valid rest
    else if b < 0xC2 then false
    else if b ≤ 0xDF then
      match rest with
      | c1 :: r => utf8Cont c1 && utf8Valid r
      | [] => false
    else if b ≤ 0xEF then
      match rest with
      | c1 :: c2 :: r =>
        (if b = 0xE0 then 0xA0 ≤ c1 && c1 ≤ 0xBF
         else if b = 0xED then 0x80 ≤ c1 && c1 ≤ 0x9F
         else utf8Cont c1) && utf8Cont c2 && utf8Valid r
      | _ => false
    else if b ≤ 0xF4 then
      match rest with
      | c1 :: c2 :: c3 :: r =>
        (if b = 0xF0 then 0x90 ≤ c1 && c1 ≤ 0xBF
         else if b = 0xF4 then 0x80 ≤ c1 && c1 ≤ 0x8F
         else utf8Cont c1) && utf8Cont c2 && utf8Cont c3 && utf8Valid r
      | _ => false
    else false

/-- ASCII upper-casing of one byte. -/
def asciiUpperByte (b : Nat) : Nat :=
  if 97 ≤ b ∧ b ≤ 122 then b - 32 else b

/-- ASCII upper-casing of a byte string.  Models `str::to_uppercase` for the
comparisons the source makes (`"PX"`, `"SET"`, `"GETACK"`, …): on valid UTF-8
input, Unicode upper-casing equals a byte list of ASCII letters and digits
exactly when the ASCII upper-casing does. -/
def asciiUpper (bs : List Nat) : List Nat :=
  bs.map asciiUpperByte

/-- A decimal digit byte. -/
def isDigitByte (b : Nat) : Bool :=
  48 ≤ b && b ≤ 57

/-- Value of a digit-byte string, most significant first. -/
def foldDecBytes (ds : List Nat) : Nat :=
  ds.foldl (fun a d => a * 10 + (d - 48)) 0

/-- The digit run of Rust's integer `FromStr` (after the optional sign):
nonempty, all decimal digits. -/
def parseDigits (ds : List Nat) : Option Nat :=
  if ds ≠ [] ∧ ds.all isDigitByte then some (foldDecBytes ds) else none

/-- Rust `str::parse` for a signed integer type with range `[lo, hi]`
(`i64`, `i32`).  Overflow during Rust's checked accumulation occurs exactly
when the exact value leaves the range, so a final range check is equivalent. -/
def parseSignedDec (lo hi : Int) : List Nat → Option Int
  | [] => none
  | b :: rest =>
    let digits := if b = 43 then rest else if b = 45 then rest else b :: rest
    (parseDigits digits).bind fun n =>
      let v : Int := if b = 45 then -(n : Int) else (n : Int)
      if lo ≤ v ∧ v ≤ hi then some v else none

/-- Rust `str::parse` for an unsigned integer type with range `[0, hi]`
(`u64`); a leading `-` is rejected (`-` is not a digit). -/
def parseUnsignedDec (hi : Nat) : List Nat → Option Nat
  | [] => none
  | b :: rest =>
    let digits := if b = 43 then rest else b :: rest
    (parseDigits digits).bind fun n =>
      if n ≤ hi then some n else none

/-- `parse::<i64>` (used by `read_integer`). -/
def parseI64 : List Nat → Option Int :=
  parseSignedDec (-(2 ^ 63)) (2 ^ 63 - 1)

/-- `parse::<i32>` (used by `read_length`). -/
def parseI32 : List Nat → Option Int :=
  parseSignedDec (-(2 ^ 31)) (2 ^ 31 - 1)

/-- `parse::<u64>` (used for the `SET … PX` argument). -/
def parseU64 : List Nat → Option Nat :=
  parseUnsignedDec (2 ^ 64 - 1)

/-- The `for _ in 0..length` loop of `read_array`: read `k` values with the
given single-value reader, threading the unconsumed rest. -/
def readElems (read : List Nat → Option (Value × List Nat)) :
    Nat → List Nat → Option (List Value × List Nat)
  | 0, s => some ([], s)
  | k + 1, s =>
    (read s).bind fun (v, s1) =>
      (readElems read k s1).bind fun (vs, s2) => some (v :: vs, s2)

/-- `ValueReader::read` from `src/protocol/value/reader.rs` on a flat buffer
(the whole remaining input available to `fill_buf`, as for an in-memory
reader).  Returns the value and the unconsumed rest; `none` collapses the
`EndOfInput` / `Invalid` / `Io` error cases.  The `String::from_utf8` checks
of `read_line` are modelled by `utf8Valid`; the numeric parses by `parseI64`
and `parseI32` (a line that fails them also fails the corresponding Rust
parse, so folding the UTF-8 check into the parse is behaviour-preserving).
The fuel only bounds the recursion depth; `readValue` supplies enough. -/
def readValueFuel : Nat → List Nat → Option (Value × List Nat)
  | 0, _ => none
  | fuel + 1, s =>
    match s with
    | [] => none
    | prefixByte :: s1 =>
      if prefixByte = 43 then
        -- read_simple_string
        (readLineFlat s1).bind fun (sz, line, rest) =>
          if utf8Valid line then some (Value.simpleString (sz + 1) line, rest) else none
      else if prefixByte = 45 then
        -- read_simple_error
        (readLineFlat s1).bind fun (sz, line, rest) =>
          if utf8Valid line then some (Value.simpleError (sz + 1) line, rest) else none
      else if prefixByte = 58 then
        -- read_integer
        (readLineFlat s1).bind fun (sz, line, rest) =>
          (parseI64 line).bind fun i => some (Value.integer (sz + 1) i, rest)
      else if prefixByte = 36 then
        -- read_bulk_string
        (readLineFlat s1).bind fun (lengthSize, line, rest) =>
          (parseI32 line).bind fun len =>
            if len < 0 then some (Value.nullBulkString, rest)
            else
              let n := len.toNat
              if rest.length < n + 2 then none
              else
                let data := rest.take (n + 2)
                if data.drop n = crlf then
                  some (Value.bulkString (n + lengthSize + 3) (data.take n), rest.drop (n + 2))
                else none
      else if prefixByte = 42 then
        -- read_array
        (readLineFlat s1).bind fun (lengthSize, line, rest) =>
          (parseI32 line).bind fun len =>
            if len < 0 then some (Value.nullArray, rest)
            else
              (readElems (readValueFuel fuel) len.toNat rest).bind fun (values, rest2) =>
                some (Value.array ((values.map Value.size).sum + lengthSize + 1) values, rest2)
      else none

/-- `ValueReader::read` with sufficient fuel: a value of `n` bytes nests fewer
than `n` arrays, so `length + 1` levels always suffice. -/
def readValue (s : List Nat) : Option (Value × List Nat) :=
  readValueFuel (s.length + 1) s

/-! ### Decimal formatting / parsing lemmas -/

theorem natDecBytesAux_congr (n : Nat) :
    ∀ fuel fuel', n < fuel → n < fuel' →
      natDecBytesAux fuel n = natDecBytesAux fuel' n := by
  induction n using Nat.strong_induction_on with
  | _ n ih =>
    intro fuel fuel' h h'
    match fuel, fuel' with
    | f + 1, f' + 1 =>
      simp only [natDecBytesAux]
      by_cases h10 : n < 10
      · simp [h10]
      · have hdiv : n / 10 < n := Nat.div_lt_self (by omega) (by omega)
        simp only [if_neg h10]
        rw [ih (n / 10) hdiv f f' (by omega) (by omega)]

theorem natDecBytes_eq (n : Nat) :
    natDecBytes n = if n < 10 then [48 + n] else natDecBytes (n / 10) ++ [48 + n % 10] := by
  by_cases h10 : n < 10
  · simp [natDecBytes, natDecBytesAux, h10]
  · rw [if_neg h10]
    show natDecBytesAux (n + 1) n = natDecBytesAux (n / 10 + 1) (n / 10) ++ [48 + n % 10]
    rw [show natDecBytesAux (n + 1) n
        = if n < 10 then [48 + n] else natDecBytesAux n (n / 10) ++ [48 + n % 10] from rfl]
    rw [if_neg h10]
    congr 1
    exact natDecBytesAux_congr (n / 10) n (n / 10 + 1)
      (Nat.div_lt_self (by omega) (by omega)) (by omega)

theorem natDecBytes_ne_nil (n : Nat) : natDecBytes n ≠ [] := by
  rw [natDecBytes_eq]
  split <;> simp

theorem natDecBytes_all_digits (n : Nat) : (natDecBytes n).all isDigitByte = true := by
  induction n using Nat.strong_induction_on with
  | _ n ih =>
    rw [natDecBytes_eq]
    by_cases h10 : n < 10
    · simp [h10, isDigitByte]; omega
    · have hdiv : n / 10 < n := Nat.div_lt_self (by omega) (by omega)
      simp only [if_neg h10, List.all_append, ih (n / 10) hdiv, Bool.true_and, List.all_cons,
        List.all_nil, Bool.and_true]
      simp [isDigitByte]; omega

theorem foldDecBytes_natDecBytes (n : Nat) : foldDecBytes (natDecBytes n) = n := by
  induction n using Nat.strong_induction_on with
  | _ n ih =>
    rw [natDecBytes_eq]
    by_cases h10 : n < 10
    · simp [h10, foldDecBytes]
    · have hdiv : n / 10 < n := Nat.div_lt_self (by omega) (by omega)
      have hfold := ih (n / 10) hdiv
      simp only [if_neg h10, foldDecBytes, List.foldl_append, List.foldl_cons, List.foldl_nil]
      simp only [foldDecBytes] at hfold
      rw [hfold]
      omega

theorem parseDigits_natDecBytes (n : Nat) : parseDigits (natDecBytes n) = some n := by
  simp [parseDigits, natDecBytes_ne_nil, natDecBytes_all_digits, foldDecBytes_natDecBytes]

/-- The head of a decimal representation is a digit byte (so never `+` or `-`). -/
theorem natDecBytes_head_digit (n : Nat) :
    ∀ d ds, natDecBytes n = d :: ds → 48 ≤ d ∧ d ≤ 57 := by
  intro d ds h
  have := natDecBytes_all_digits n
  rw [h] at this
  simp [isDigitByte] at this
  omega

theorem parseSignedDec_natDecBytes (lo hi : Int) (n : Nat)
    (hlo : lo ≤ (n : Int)) (hhi : (n : Int) ≤ hi) :
    parseSignedDec lo hi (natDecBytes n) = some (n : Int) := by
  rcases hd : natDecBytes n with _ | ⟨d, ds⟩
  · exact absurd hd (natDecBytes_ne_nil n)
  · have hdig := natDecBytes_head_digit n d ds hd
    have h43 : d ≠ 43 := by omega
    have h45 : d ≠ 45 := by omega
    have hparse := parseDigits_natDecBytes n
    rw [hd] at hparse
    simp [parseSignedDec, h43, h45, hparse, hlo, hhi]

theorem parseSignedDec_intDecBytes (lo hi i : Int)
    (hlo : lo ≤ i) (hhi : i ≤ hi) :
    parseSignedDec lo hi (intDecBytes i) = some i := by
  unfold intDecBytes
  by_cases hneg : i < 0
  · have habs : -((i.natAbs : Int)) = i := by omega
    have hparse := parseDigits_natDecBytes i.natAbs
    rw [if_pos hneg]
    simp only [parseSignedDec]
    norm_num
    simp only [hparse, Option.some_bind]
    rw [habs]
    simp [hlo, hhi]
  · rw [if_neg hneg, parseSignedDec_natDecBytes lo hi i.toNat (by omega) (by omega),
      Int.toNat_of_nonneg (by omega)]

/-! ### Line reading lemmas -/

theorem findCRLF_cons_of_ne (a b : Nat) (rest : List Nat) (h : ¬(a = 13 ∧ b = 10)) :
    findCRLF (a :: b :: rest) = (findCRLF (b :: rest)).map (· + 1) := by
  simp [findCRLF, h]

theorem findCRLF_none_cons (a : Nat) (v : List Nat) (h : findCRLF (a :: v) = none) :
    findCRLF v = none := by
  match v with
  | [] => rfl
  | b :: rest =>
    by_cases hab : a = 13 ∧ b = 10
    · simp [findCRLF, hab] at h
    · rw [findCRLF_cons_of_ne a b rest hab] at h
      simpa using h

theorem findCRLF_append_crlf (v r : List Nat) (h : findCRLF v = none) :
    findCRLF (v ++ 13 :: 10 :: r) = some v.length := by
  induction v with
  | nil => simp [findCRLF]
  | cons a v ih =>
    have hv : findCRLF v = none := findCRLF_none_cons a v h
    have hih := ih hv
    match v with
    | [] =>
      have hne : ¬(a = 13 ∧ (13 : Nat) = 10) := by omega
      simpa [findCRLF, hne] using rfl
    | b :: v' =>
      have hab : ¬(a = 13 ∧ b = 10) := by
        intro hab
        simp [findCRLF, hab] at h
      rw [List.cons_append, List.cons_append]
      rw [findCRLF_cons_of_ne a b (v' ++ 13 :: 10 :: r) hab]
      rw [List.cons_append] at hih
      rw [hih]
      simp

/-- Reading a line from `v ++ CRLF ++ r` when `v` itself has no CRLF pair:
exactly `v` is returned and `|v| + 2` bytes are consumed. -/
theorem readLineFlat_append (v r : List Nat) (h : findCRLF v = none) :
    readLineFlat (v ++ 13 :: 10 :: r) = some (v.length + 2, v, r) := by
  unfold readLineFlat
  rw [findCRLF_append_crlf v r h]
  have htake : (v ++ 13 :: 10 :: r).take v.length = v := by
    simpa using List.take_left v (13 :: 10 :: r)
  have hdrop : (v ++ 13 :: 10 :: r).drop (v.length + 2) = r := by
    rw [show v ++ 13 :: 10 :: r = (v ++ [13, 10]) ++ r by simp]
    have := List.drop_left (v ++ [13, 10]) r
    simpa using this
  simp [htake, hdrop]

theorem findCRLF_eq_none_of_no_cr (l : List Nat) (h : ∀ d ∈ l, d ≠ 13) :
    findCRLF l = none := by
  induction l with
  | nil => rfl
  | cons a t ih =>
    match t with
    | [] => rfl
    | b :: rest =>
      have ha : a ≠ 13 := h a (by simp)
      rw [findCRLF_cons_of_ne a b rest (by omega)]
      rw [ih (fun d hd => h d (by simp [hd]))]
      rfl

theorem natDecBytes_no_cr (n : Nat) : ∀ d ∈ natDecBytes n, d ≠ 13 := by
  intro d hd
  have := natDecBytes_all_digits n
  rw [List.all_eq_true] at this
  have := this d hd
  simp [isDigitByte] at this
  omega

theorem findCRLF_natDecBytes (n : Nat) : findCRLF (natDecBytes n) = none :=
  findCRLF_eq_none_of_no_cr _ (natDecBytes_no_cr n)

theorem findCRLF_intDecBytes (i : Int) : findCRLF (intDecBytes i) = none := by
  apply findCRLF_eq_none_of_no_cr
  intro d hd
  unfold intDecBytes at hd
  split at hd
  · rcases List.mem_cons.mp hd with hd | hd
    · omega
    · exact natDecBytes_no_cr _ d hd
  · exact natDecBytes_no_cr _ d hd

/-! ### Well-formed values: exactly the on-wire shapes the reader can return.

`wellFormed` cuts the `Value` type down to the values whose carried size is
the true wire size and whose payloads are expressible in the RESP grammar:
no `BulkBytes` (the writer emits no trailing CR LF for it, so it cannot be
read back), simple strings and errors hold valid UTF-8 with no embedded
CR LF pair, integers fit `i64`, and lengths fit `i32` (the reader parses
length headers with `parse::<i32>`). -/

mutual

def wellFormed : Value → Bool
  | Value.simpleString sz v =>
    sz == v.length + 3 && utf8Valid v && (findCRLF v).isNone
  | Value.simpleError sz v =>
    sz == v.length + 3 && utf8Valid v && (findCRLF v).isNone
  | Value.integer sz i =>
    sz == (intDecBytes i).length + 3 && decide (-(2 ^ 63) ≤ i) && decide (i ≤ 2 ^ 63 - 1)
  | Value.bulkString sz b =>
    sz == b.length + numDigits b.length + 5 && decide (b.length ≤ 2 ^ 31 - 1)
  | Value.bulkBytes _ _ => false
  | Value.array sz vs =>
    sz == (vs.map Value.size).sum + numDigits vs.length + 3
      && decide (vs.length ≤ 2 ^ 31 - 1) && wellFormedList vs
  | Value.nullBulkString => true
  | Value.nullArray => true

def wellFormedList : List Value → Bool
  | [] => true
  | v :: vs => wellFormed v && wellFormedList vs

end

mutual

/-- Number of `Value` nodes (arrays count their elements recursively). -/
def Value.nodes : Value → Nat
  | Value.array _ vs => Value.nodesList vs + 1
  | _ => 1

def Value.nodesList : List Value → Nat
  | [] => 0
  | v :: vs => Value.nodes v + Value.nodesList vs

end

mutual

theorem writeValue_length : ∀ V, wellFormed V = true → (writeValue V).length = V.size
  | Value.simpleString sz v, h => by
    simp only [wellFormed, Bool.and_eq_true, beq_iff_eq] at h
    simp [writeValue, crlf, Value.size, h.1.1]
  | Value.simpleError sz v, h => by
    simp only [wellFormed, Bool.and_eq_true, beq_iff_eq] at h
    simp [writeValue, crlf, Value.size, h.1.1]
  | Value.integer sz i, h => by
    simp only [wellFormed, Bool.and_eq_true, beq_iff_eq] at h
    simp [writeValue, crlf, Value.size, h.1.1]
  | Value.bulkString sz b, h => by
    simp only [wellFormed, Bool.and_eq_true, beq_iff_eq] at h
    simp [writeValue, crlf, Value.size, numDigits, h.1]
    omega
  | Value.bulkBytes sz b, h => by
    simp [wellFormed] at h
  | Value.array sz vs, h => by
    simp only [wellFormed, Bool.and_eq_true, beq_iff_eq] at h
    have hvs := writeValues_length vs h.2
    simp [writeValue, crlf, Value.size, numDigits, h.1.1, hvs]
    omega
  | Value.nullBulkString, _ => by simp [writeValue, crlf, Value.size, asc]
  | Value.nullArray, _ => by simp [writeValue, crlf, Value.size, asc]

theorem writeValues_length :
    ∀ vs, wellFormedList vs = true → (writeValues vs).length = (vs.map Value.size).sum
  | [], _ => by simp [writeValues]
  | v :: vs, h => by
    simp only [wellFormedList, Bool.and_eq_true] at h
    have h1 := writeValue_length v h.1
    have h2 := writeValues_length vs h.2
    simp [writeValues, h1, h2]

end

mutual

theorem nodes_le_writeValue_length : ∀ V, Value.nodes V ≤ (writeValue V).length
  | Value.simpleString _ v => by simp [writeValue, Value.nodes, crlf]
  | Value.simpleError _ v => by simp [writeValue, Value.nodes, crlf]
  | Value.integer _ i => by simp [writeValue, Value.nodes, crlf]
  | Value.bulkString _ b => by simp [writeValue, Value.nodes, crlf]
  | Value.bulkBytes _ b => by simp [writeValue, Value.nodes, crlf]
  | Value.array _ vs => by
    have hvs := nodesList_le_writeValues_length vs
    have hne : (natDecBytes vs.length).length ≥ 1 := by
      have := natDecBytes_ne_nil vs.length
      cases hh : natDecBytes vs.length with
      | nil => exact absurd hh this
      | cons a t => simp
    simp [writeValue, Value.nodes, crlf]
    omega
  | Value.nullBulkString => by simp [writeValue, Value.nodes, crlf, asc]
  | Value.nullArray => by simp [writeValue, Value.nodes, crlf, asc]

theorem nodesList_le_writeValues_length :
    ∀ vs, Value.nodesList vs ≤ (writeValues vs).length
  | [] => by simp [writeValues, Value.nodesList]
  | v :: vs => by
    have h1 := nodes_le_writeValue_length v
    have h2 := nodesList_le_writeValues_length vs
    simp [writeValues, Value.nodesList]
    omega

end

theorem nodes_pos : ∀ V, 1 ≤ Value.nodes V := by
  intro V
  cases V <;> simp [Value.nodes]

/-- Write-then-read roundtrip, fuel version: any well-formed value written to
the front of a stream is read back exactly, leaving the rest untouched. -/
theorem readValueFuel_roundtrip :
    ∀ fuel V r, wellFormed V = true → Value.nodes V ≤ fuel →
      readValueFuel fuel (writeValue V ++ r) = some (V, r) := by
  intro fuel
  induction fuel using Nat.strong_induction_on with
  | _ fuel ih =>
    intro V r hwf hn
    cases fuel with
    | zero => have := nodes_pos V; omega
    | succ f =>
      cases V with
      | simpleString sz v =>
        simp only [wellFormed, Bool.and_eq_true, beq_iff_eq, Option.isNone_iff_eq_none] at hwf
        obtain ⟨⟨hsz, hutf⟩, hcr⟩ := hwf
        have hline := readLineFlat_append v r hcr
        simp only [writeValue, crlf, List.cons_append, List.append_assoc, List.nil_append]
        simp [readValueFuel, hline, hutf, hsz]
      | simpleError sz v =>
        simp only [wellFormed, Bool.and_eq_true, beq_iff_eq, Option.isNone_iff_eq_none] at hwf
        obtain ⟨⟨hsz, hutf⟩, hcr⟩ := hwf
        have hline := readLineFlat_append v r hcr
        simp only [writeValue, crlf, List.cons_append, List.append_assoc, List.nil_append]
        simp [readValueFuel, hline, hutf, hsz]
      | integer sz i =>
        simp only [wellFormed, Bool.and_eq_true, beq_iff_eq, decide_eq_true_eq] at hwf
        obtain ⟨⟨hsz, hlo⟩, hhi⟩ := hwf
        have hline := readLineFlat_append (intDecBytes i) r (findCRLF_intDecBytes i)
        have hparse : parseI64 (intDecBytes i) = some i :=
          parseSignedDec_intDecBytes _ _ i hlo (by omega)
        simp only [writeValue, crlf, List.cons_append, List.append_assoc, List.nil_append]
        simp [readValueFuel, hline, hparse, hsz]
      | bulkString sz b =>
        simp only [wellFormed, Bool.and_eq_true, beq_iff_eq, decide_eq_true_eq] at hwf
        obtain ⟨hsz, hlen⟩ := hwf
        have hline := readLineFlat_append (natDecBytes b.length) (b ++ 13 :: 10 :: r)
          (findCRLF_natDecBytes _)
        have hparse : parseI32 (natDecBytes b.length) = some (b.length : Int) :=
          parseSignedDec_natDecBytes _ _ b.length (by omega) (by omega)
        simp only [writeValue, crlf, List.cons_append, List.append_assoc, List.nil_append]
        simp only [readValueFuel, hline, Option.some_bind, hparse]
        have hneg : ¬((b.length : Int) < 0) := by omega
        rw [if_neg hneg]
        have htn : ((b.length : Int)).toNat = b.length := Int.toNat_natCast b.length
        have hrest : (b ++ 13 :: 10 :: r) = (b ++ [13, 10]) ++ r := by simp
        have hrl : (b ++ 13 :: 10 :: r).length = b.length + 2 + r.length := by
          simp
          omega
        have htake : (b ++ 13 :: 10 :: r).take (b.length + 2) = b ++ [13, 10] := by
          rw [hrest]
          exact List.take_left' (by simp)
        have hdrop2 : (b ++ [13, 10]).drop b.length = [13, 10] := List.drop_left b [13, 10]
        have htakeb : (b ++ [13, 10]).take b.length = b := List.take_left b [13, 10]
        have hdropall : (b ++ 13 :: 10 :: r).drop (b.length + 2) = r := by
          rw [hrest]
          exact List.drop_left' (by simp)
        rw [htn]
        rw [if_neg (show ¬((b ++ 13 :: 10 :: r).length < b.length + 2) by rw [hrl]; omega)]
        have hsizes : b.length + ((natDecBytes b.length).length + 2) + 3
            = b.length + numDigits b.length + 5 := by
          unfold numDigits
          omega
        simp only [htake, hdrop2, htakeb, hdropall, crlf]
        simp [hsz, hsizes]
      | bulkBytes sz b =>
        simp [wellFormed] at hwf
      | array sz vs =>
        simp only [wellFormed, Bool.and_eq_true, beq_iff_eq, decide_eq_true_eq] at hwf
        obtain ⟨⟨hsz, hlen⟩, hwfl⟩ := hwf
        have hnl : Value.nodesList vs ≤ f := by
          simp only [Value.nodes] at hn
          omega
        have helems : ∀ (ws : List Value) (s : List Nat), wellFormedList ws = true →
            Value.nodesList ws ≤ f →
            readElems (readValueFuel f) ws.length (writeValues ws ++ s) = some (ws, s) := by
          intro ws
          induction ws with
          | nil => intro s _ _; simp [writeValues, readElems]
          | cons w ws ihw =>
            intro s hfw hfn
            simp only [wellFormedList, Bool.and_eq_true] at hfw
            simp only [Value.nodesList] at hfn
            have hwpos := nodes_pos w
            have hw := ih f (by omega) w (writeValues ws ++ s) hfw.1 (by omega)
            have hws := ihw s hfw.2 (by omega)
            simp only [writeValues, List.length_cons, List.append_assoc, readElems]
            rw [hw]
            simp only [Option.some_bind]
            rw [hws]
            rfl
        have hline := readLineFlat_append (natDecBytes vs.length) (writeValues vs ++ r)
          (findCRLF_natDecBytes _)
        have hparse : parseI32 (natDecBytes vs.length) = some (vs.length : Int) :=
          parseSignedDec_natDecBytes _ _ vs.length (by omega) (by omega)
        simp only [writeValue, crlf, List.cons_append, List.append_assoc, List.nil_append]
        simp only [readValueFuel, hline, Option.some_bind, hparse]
        have hneg : ¬((vs.length : Int) < 0) := by omega
        rw [if_neg hneg]
        rw [Int.toNat_natCast]
        rw [helems vs r hwfl hnl]
        have hsizes : (vs.map Value.size).sum + ((natDecBytes vs.length).length + 2) + 1
            = (vs.map Value.size).sum + numDigits vs.length + 3 := by
          unfold numDigits
          omega
        simp [hsz, hsizes]
      | nullBulkString =>
        have hcr : findCRLF [45, 49] = none := rfl
        have hline := readLineFlat_append [45, 49] r hcr
        have hstream : writeValue Value.nullBulkString ++ r = 36 :: ([45, 49] ++ 13 :: 10 :: r) := by
          simp [writeValue, crlf, asc]
        rw [hstream]
        simp only [readValueFuel, hline, Option.some_bind]
        rfl
      | nullArray =>
        have hcr : findCRLF [45, 49] = none := rfl
        have hline := readLineFlat_append [45, 49] r hcr
        have hstream : writeValue Value.nullArray ++ r = 42 :: ([45, 49] ++ 13 :: 10 :: r) := by
          simp [writeValue, crlf, asc]
        rw [hstream]
        simp only [readValueFuel, hline, Option.some_bind]
        rfl

/-- Write-then-read roundtrip for `ValueReader::read` with its standing fuel. -/
theorem readValue_writeValue (V : Value) (r : List Nat) (hwf : wellFormed V = true) :
    readValue (writeValue V ++ r) = some (V, r) := by
  unfold readValue
  apply readValueFuel_roundtrip _ V r hwf
  have h1 := nodes_le_writeValue_length V
  have : (writeValue V).length ≤ (writeValue V ++ r).length := by simp
  omega

/-! ### Claim C1 and C3 theorems -/

/-- C1: the synthesizing constructors do NOT compute the writer's byte count.
`Value::simple_string("PONG")` stores size `4` (`"PONG".len().to_string().len()
+ 3 = 1 + 3`) while the writer emits the 7 bytes `+PONG\r\n`; `Value::integer(100)`
stores `3` versus the 6 written bytes `:100\r\n`; `Value::bulk_string_from_bytes
(b"hello")` stores `4` versus the 11 written bytes `$5\r\nhello\r\n`.  This
evaluates the embedded code at those inputs, refuting the claimed equality. -/
theorem simple_string_size_vs_written_bytes :
    (Value.simple_string (asc "PONG")).size = 4
      ∧ (writeValue (Value.simple_string (asc "PONG"))).length = 7
      ∧ (Value.int 100).size = 3
      ∧ (writeValue (Value.int 100)).length = 6
      ∧ (Value.bulk_string_from_bytes (asc "hello")).size = 4
      ∧ (writeValue (Value.bulk_string_from_bytes (asc "hello"))).length = 11
      ∧ (Value.command (asc "SET") [asc "k", asc "v"]).size = 16
      ∧ (writeValue (Value.command (asc "SET") [asc "k", asc "v"])).length = 27 :=
  ⟨rfl, rfl, rfl, rfl, rfl, rfl, rfl, rfl⟩

/-- C3 counterexample: a `BulkBytes` value (part of the `Value` type, emitted
for the PSYNC snapshot) does not round-trip: the writer emits no trailing
CR LF, so the reader's `read_bulk_string` fails on the written bytes. -/
theorem writeValue_bulkBytes_not_readable :
    writeValue (Value.bulkBytes 3 (asc "abc")) = asc "$3\r\nabc"
      ∧ readValue (writeValue (Value.bulkBytes 3 (asc "abc"))) = none :=
  ⟨rfl, rfl⟩

/-- C3 (amended): for every well-formed value `V` — carried sizes equal to the
wire size, no `BulkBytes`, simple strings/errors valid UTF-8 without an
embedded CR LF, integers within `i64`, lengths within `i32` — writing `V` and
reading the result yields `V` itself (variant, payload and carried size) and
the size carried by the read value equals the length of the written bytes. -/
theorem readValue_writeValue_roundtrip (V : Value) (h : wellFormed V = true) :
    readValue (writeValue V) = some (V, []) ∧ V.size = (writeValue V).length := by
  constructor
  · have := readValue_writeValue V [] h
    simpa using this
  · exact (writeValue_length V h).symm

/-- The array value of the source's `read_array_valid` test, used as a
round-trip witness input. -/
def exampleArrayValue : Value :=
  Value.array 12 [Value.bulkString 8 (asc "OK")]

/-- C3 witness: the round-trip theorem applied to a concrete nested value. -/
theorem readValue_writeValue_roundtrip_witness :
    wellFormed exampleArrayValue = true
      ∧ (readValue (writeValue exampleArrayValue) = some (exampleArrayValue, [])
        ∧ exampleArrayValue.size = (writeValue exampleArrayValue).length) :=
  ⟨rfl, readValue_writeValue_roundtrip exampleArrayValue rfl⟩

/-! ### Command model: `src/protocol/command/{mod,parse,format}.rs`

Parse errors carry human-readable messages in the source (`FromValueError`);
the messages are not modelled, so the parser returns `Option Command` with
`none` for every `FromValueError`.  The snapshot is internally inconsistent
about WAIT: `parse.rs` and `format.rs` construct and match a `Command::Wait`
variant, but the enum in `command/mod.rs` declares no such variant and the
actor's `Server::handle` has no arm for it; the embedding includes the `wait`
constructor so the parser and formatter can be expressed, and `Server.handle`
is undefined (`none`) on it, mirroring the missing match arm. -/

inductive Command where
  | ping : Nat → Option (List Nat) → Command
  | echo : Nat → List Nat → Command
  | get : Nat → List Nat → Command
  | set : Nat → List Nat → List Nat → Option Nat → Command
  | info : Nat → List (List Nat) → Command
  | replconf : Nat → List Nat → List Nat → Command
  | psync : Nat → Option (List Nat) → Option Nat → Command
  | wait : Nat → Int → Int → Command

namespace Command

/-- The `size` field common to every variant. -/
def size : Command → Nat
  | ping s _ => s
  | echo s _ => s
  | get s _ => s
  | set s _ _ _ => s
  | info s _ => s
  | replconf s _ _ => s
  | psync s _ _ => s
  | wait s _ _ => s

/-- `Command::is_write`. -/
def is_write : Command → Bool
  | set _ _ _ _ => true
  | _ => false

end Command

/-- `parse_ping`: an optional message; extra arguments are ignored. -/
def parse_ping (size : Nat) (args : List (List Nat)) : Option Command :=
  some (Command.ping size args.head?)

/-- `parse_echo`. -/
def parse_echo (size : Nat) : List (List Nat) → Option Command
  | [] => none
  | m :: _ => some (Command.echo size m)

/-- `parse_get`. -/
def parse_get (size : Nat) : List (List Nat) → Option Command
  | [] => none
  | k :: _ => some (Command.get size k)

/-- `parse_set_expiry`: pops one argument and parses it with
`parse_number::<u64>` (UTF-8 check then `str::parse::<u64>`); any arguments
after it are never examined. -/
def parse_set_expiry : List (List Nat) → Option Nat
  | [] => none
  | bytes :: _ => if utf8Valid bytes then parseU64 bytes else none

/-- `parse_set_args`: no argument means no expiry; otherwise the argument must
be valid UTF-8 upper-casing to `PX`, followed by the expiry value. -/
def parse_set_args : List (List Nat) → Option (Option Nat)
  | [] => some none
  | arg :: rest =>
    if utf8Valid arg = true ∧ asciiUpper arg = asc "PX" then
      (parse_set_expiry rest).map some
    else none

/-- `parse_set`: at least two arguments, then the optional `PX` suffix. -/
def parse_set (size : Nat) : List (List Nat) → Option Command
  | key :: value :: rest =>
    (parse_set_args rest).map fun expiry => Command.set size key value expiry
  | _ => none

/-- `parse_info`. -/
def parse_info (size : Nat) (args : List (List Nat)) : Option Command :=
  some (Command.info size args)

/-- `parse_replconf`. -/
def parse_replconf (size : Nat) : List (List Nat) → Option Command
  | k :: v :: _ => some (Command.replconf size k v)
  | _ => none

/-- `parse_psync_replid`: literal `?` means none. -/
def parse_psync_replid (replid : List Nat) : Option (List Nat) :=
  if replid = asc "?" then none else some replid

/-- `parse_psync_offset`: `parse_number::<i64>`, negative maps to none,
otherwise `offset as u32` (truncation modulo `2^32`). -/
def parse_psync_offset (offset : List Nat) : Option (Option Nat) :=
  if utf8Valid offset then
    (parseI64 offset).map fun i => if i < 0 then none else some (i.toNat % 2 ^ 32)
  else none

/-- `parse_psync`. -/
def parse_psync (size : Nat) : List (List Nat) → Option Command
  | a :: b :: _ =>
    (parse_psync_offset b).map fun off => Command.psync size (parse_psync_replid a) off
  | _ => none

/-- `parse_wait`: both arguments through `parse_number`; the numeric type is
not declared in the snapshot (the `Wait` variant is missing from the enum), so
`i64` is used. -/
def parse_wait (size : Nat) : List (List Nat) → Option Command
  | a :: b :: _ =>
    (if utf8Valid a then parseI64 a else none).bind fun replicas =>
      (if utf8Valid b then parseI64 b else none).map fun timeout =>
        Command.wait size replicas timeout
  | _ => none

/-- `from_parts`: pops the command name (UTF-8, case-insensitive) and
dispatches. -/
def from_parts (size : Nat) : List (List Nat) → Option Command
  | [] => none
  | command :: args =>
    if utf8Valid command then
      let c := asciiUpper command
      if c = asc "PING" then parse_ping size args
      else if c = asc "ECHO" then parse_echo size args
      else if c = asc "GET" then parse_get size args
      else if c = asc "SET" then parse_set size args
      else if c = asc "INFO" then parse_info size args
      else if c = asc "REPLCONF" then parse_replconf size args
      else if c = asc "PSYNC" then parse_psync size args
      else if c = asc "WAIT" then parse_wait size args
      else none
    else none

/-- The element loop of `from_values`: every element must be a bulk string. -/
def extractBulks : List Value → Option (List (List Nat))
  | [] => some []
  | Value.bulkString _ b :: rest => (extractBulks rest).map (b :: ·)
  | _ => none

/-- `from_values`: a non-empty all-bulk-string array. -/
def from_values (size : Nat) (values : List Value) : Option Command :=
  match values with
  | [] => none
  | _ :: _ => (extractBulks values).bind (from_parts size)

/-- `from_value` (`TryFrom<Value> for Command`). -/
def from_value : Value → Option Command
  | Value.array size values => from_values size values
  | _ => none

/-- `format::to_value` (`Command::to_value`): the array-of-bulk-strings form,
built with `Value::command`. -/
def Command.to_value : Command → Value
  | Command.ping _ none => Value.command (asc "PING") []
  | Command.ping _ (some m) => Value.command (asc "PING") [m]
  | Command.echo _ m => Value.command (asc "ECHO") [m]
  | Command.get _ k => Value.command (asc "GET") [k]
  | Command.set _ k v none => Value.command (asc "SET") [k, v]
  | Command.set _ k v (some e) => Value.command (asc "SET") [k, v, asc "PX", natDecBytes e]
  | Command.info _ sections => Value.command (asc "INFO") sections
  | Command.replconf _ k v => Value.command (asc "REPLCONF") [k, v]
  | Command.psync _ replid offset =>
    Value.command (asc "PSYNC")
      [replid.getD (asc "?"), (offset.map natDecBytes).getD (asc "-1")]
  | Command.wait _ n t => Value.command (asc "WAIT") [intDecBytes n, intDecBytes t]

/-! ### Command actor: `src/server/mod.rs` and `src/server/replication.rs`

Monotonic instants (`Instant`) are modelled as `Nat` milliseconds supplied as
a `now` parameter; the `HashMap` keyspace as an association list whose lookup
takes the most recent insertion; a replica's unbounded reply channel as an
`alive` flag (a channel `send` succeeds exactly when the receiving half still
exists).  The iteration order of the `HashMap` built by `Server::info` is
unspecified in Rust, so `Server.handle` takes the joined line order as the
`infoOrder` parameter, ranging over permutations of the inserted lines. -/

/-- One database entry: key, value, optional expiry (ms), creation instant. -/
structure DbEntry where
  key : List Nat
  value : List Nat
  expiry : Option Nat
  created_at : Nat

/-- `Database::set`: insert or replace (`HashMap::insert`). -/
def dbSet (db : List DbEntry) (key value : List Nat) (expiry : Option Nat) (now : Nat) :
    List DbEntry :=
  ⟨key, value, expiry, now⟩ :: db.filter (fun e => !(e.key == key))

/-- `Entry::is_expired`: `created_at + expiry < now`. -/
def entryExpired (e : DbEntry) (now : Nat) : Bool :=
  match e.expiry with
  | some expiry => e.created_at + expiry < now
  | none => false

/-- `Database::get`: lazy expiry, removing the entry on an expired hit. -/
def dbGet (db : List DbEntry) (key : List Nat) (now : Nat) :
    Option (List Nat) × List DbEntry :=
  match db.find? (fun e => e.key == key) with
  | none => (none, db)
  | some e =>
    if entryExpired e now then (none, db.filter (fun e => !(e.key == key)))
    else (some e.value, db)

/-- A roster entry (`Replica`): peer address and, in place of the channel
sender, whether a send on the channel succeeds. -/
structure Replica where
  addr : Nat
  alive : Bool

/-- The command actor's exclusively owned state (`struct Server`). -/
structure ServerSt where
  replicaOf : Option (List Nat)
  database : List DbEntry
  replication : List Replica
  offset : Nat

/-- `Server::ping`. -/
def serverPing (message : Option (List Nat)) : List Value :=
  match message with
  | none => [Value.simple_string (asc "PONG")]
  | some m => [Value.bulk_string_from_bytes m]

/-- The line set inserted by `Server::info` on a master. -/
def masterInfoLines : List (List Nat) :=
  [asc "role:master",
   asc "master_replid:8371b4fb1155b71f4a04d3e1bc3e18c4a990aeeb",
   asc "master_repl_offset:0"]

/-- The line set inserted by `Server::info` on a replica. -/
def slaveInfoLines : List (List Nat) :=
  [asc "role:slave"]

/-- `Vec::join("\r\n")` over the `key:value` lines. -/
def infoBody (lines : List (List Nat)) : List Nat :=
  (lines.intersperse crlf).flatten

/-- `Server::info`: one bulk string holding the CR LF-joined lines, in the
(unspecified) `HashMap` iteration order passed as `order`. -/
def serverInfo (order : List (List Nat)) : List Value :=
  [Value.bulk_string_from_bytes (infoBody order)]

/-- `Server::replconf`: a `GETACK` key (after `from_utf8_lossy` and Unicode
upper-casing, modelled byte-wise — both sides agree on the `"GETACK"`
comparison) answers with the current offset; anything else with `OK`. -/
def serverReplconf (offset : Nat) (key : List Nat) : List Value :=
  if asciiUpper key = asc "GETACK" then
    [Value.command (asc "REPLCONF") [asc "ACK", natDecBytes offset]]
  else [Value.ok]

/-- The constant RDB snapshot bytes from `Server::psync`. -/
def rdbBytes : List Nat :=
  [82, 69, 68, 73, 83, 48, 48, 49, 49, 250, 9, 114, 101, 100, 105, 115, 45, 118, 101, 114,
   5, 55, 46, 50, 46, 48, 250, 10, 114, 101, 100, 105, 115, 45, 98, 105, 116, 115, 192,
   64, 250, 5, 99, 116, 105, 109, 101, 194, 109, 8, 188, 101, 250, 8, 117, 115, 101, 100,
   45, 109, 101, 109, 194, 176, 196, 16, 0, 250, 8, 97, 111, 102, 45, 98, 97, 115, 101,
   192, 0, 255, 240, 110, 59, 254, 192, 255, 90, 162]

/-- `Server::psync`: the FULLRESYNC header then the raw snapshot. -/
def serverPsync : List Value :=
  [Value.simple_string (asc "FULLRESYNC 8371b4fb1155b71f4a04d3e1bc3e18c4a990aeeb 0"),
   Value.bulkBytes rdbBytes.length rdbBytes]

/-- `Server::handle`: computes the reply from the state as it stands, then
adds the command's carried size to the offset.  There is no arm for `wait`
in the source (`Command::Wait` is absent from the enum `Server::handle`
matches on), so the embedding is undefined (`none`) there. -/
def Server.handle (now : Nat) (infoOrder : List (List Nat)) (c : Command) (s : ServerSt) :
    Option (ServerSt × List Value) :=
  match c with
  | Command.ping size message =>
    some ({ s with offset := s.offset + size }, serverPing message)
  | Command.echo size m =>
    some ({ s with offset := s.offset + size }, [Value.bulk_string_from_bytes m])
  | Command.get size k =>
    let (res, db) := dbGet s.database k now
    some ({ s with database := db, offset := s.offset + size },
      match res with
      | some v => [Value.bulk_string_from_bytes v]
      | none => [Value.nullBulkString])
  | Command.set size k v e =>
    some ({ s with database := dbSet s.database k v e now, offset := s.offset + size },
      [Value.ok])
  | Command.info size _ =>
    some ({ s with offset := s.offset + size }, serverInfo infoOrder)
  | Command.replconf size k _ =>
    some ({ s with offset := s.offset + size }, serverReplconf s.offset k)
  | Command.psync size _ _ =>
    some ({ s with offset := s.offset + size }, serverPsync)
  | Command.wait _ _ _ => none

/-- `ReplicationManager::replicate` with `send_to_replica`: for a write, every
roster member is attempted once in order; the sends that succeed are recorded
as `(address, array form)` events and `retain` keeps exactly those members. -/
def replicate (c : Command) (replicas : List Replica) :
    List Replica × List (Nat × Value) :=
  if c.is_write then
    (replicas.filter (fun r => r.alive),
     (replicas.filter (fun r => r.alive)).map fun r => (r.addr, c.to_value))
  else (replicas, [])

/-- The `ProcessCommand` arm of `command_loop`: run `Server::handle`, then —
only if the reply delivery to the client's queue succeeded (`replyOk`) —
fan out through `ReplicationManager::replicate`.  Returns the new state and
the list of `(replica address, enqueued value)` events. -/
def processCommand (now : Nat) (infoOrder : List (List Nat)) (c : Command) (replyOk : Bool)
    (s : ServerSt) : Option (ServerSt × List (Nat × Value)) :=
  (Server.handle now infoOrder c s).map fun (s1, _response) =>
    if replyOk then
      let (reps, events) := replicate c s1.replication
      ({ s1 with replication := reps }, events)
    else (s1, [])

/-- The `AddReplica` arm of `command_loop` (`ReplicationManager::add`):
append to the roster. -/
def addReplica (r : Replica) (s : ServerSt) : ServerSt :=
  { s with replication := s.replication ++ [r] }

/-- `ReplicationManager::connected_replicas`: `replicas.len() as i64`. -/
def connected_replicas (replicas : List Replica) : Int :=
  replicas.length

/-- Modelled from the spec: the actor's WAIT arm, which is missing from
`Server::handle` in the source (only `parse_wait`, `format::to_value` and
`connected_replicas` exist).  Per the spec the actor replies with the current
count of connected replicas as an integer and, as for every command, adds the
command's carried size to the offset. -/
def handleWait (size : Nat) (_numreplicas _timeout : Int) (s : ServerSt) :
    ServerSt × List Value :=
  ({ s with offset := s.offset + size }, [Value.int (connected_replicas s.replication)])

/-! ### Claim C2: GETACK offset accounting -/

/-- A freshly started replica-role actor state. -/
def replicaStart : ServerSt :=
  { replicaOf := some (asc "127.0.0.1:6379"), database := [], replication := [], offset := 0 }

/-- `replicaStart` after applying `SET foo bar` (31 wire bytes). -/
def replicaAfterSet : ServerSt :=
  { replicaOf := some (asc "127.0.0.1:6379"),
    database := [⟨asc "foo", asc "bar", none, 0⟩], replication := [], offset := 31 }

/-- `replicaAfterSet` after applying `REPLCONF GETACK *` (37 wire bytes). -/
def replicaAfterGetack : ServerSt :=
  { replicaOf := some (asc "127.0.0.1:6379"),
    database := [⟨asc "foo", asc "bar", none, 0⟩], replication := [], offset := 68 }

/-- C2 counterexample: after a 31-byte `SET` the actor processes a 37-byte
`REPLCONF GETACK *`; `Server::handle` builds the reply from the offset as it
stands (31) and only then adds the 37 bytes, so the ACK value is the decimal
string `31`, not the claimed `68` — the GETACK's own bytes are excluded. -/
theorem getack_reply_excludes_own_bytes :
    Server.handle 0 [] (Command.set 31 (asc "foo") (asc "bar") none) replicaStart
        = some (replicaAfterSet, [Value.ok])
      ∧ Server.handle 0 [] (Command.replconf 37 (asc "GETACK") (asc "*")) replicaAfterSet
        = some (replicaAfterGetack,
            [Value.command (asc "REPLCONF") [asc "ACK", asc "31"]])
      ∧ asc "31" ≠ asc "68"
      ∧ replicaAfterGetack.offset = 68 :=
  ⟨rfl, rfl, by decide, rfl⟩

/-- C2 (amended): for every `REPLCONF GETACK` processed by the actor, the ACK
reply reports the offset as it stood BEFORE this command — the cumulative wire
bytes of the commands processed strictly before the GETACK, excluding its own
bytes — and the offset is advanced by the GETACK's size only afterwards. -/
theorem replconf_getack_acks_offset_before_advance
    (now : Nat) (ord : List (List Nat)) (sz : Nat) (key value : List Nat) (s : ServerSt)
    (h : asciiUpper key = asc "GETACK") :
    Server.handle now ord (Command.replconf sz key value) s
      = some ({ s with offset := s.offset + sz },
          [Value.command (asc "REPLCONF") [asc "ACK", natDecBytes s.offset]]) := by
  simp [Server.handle, serverReplconf, h]

/-- C2 witness: the amended theorem at the concrete 31-then-37-byte run. -/
theorem replconf_getack_acks_offset_before_advance_witness :
    Server.handle 0 [] (Command.replconf 37 (asc "GETACK") (asc "*")) replicaAfterSet
      = some ({ replicaAfterSet with offset := replicaAfterSet.offset + 37 },
          [Value.command (asc "REPLCONF") [asc "ACK", natDecBytes replicaAfterSet.offset]]) :=
  replconf_getack_acks_offset_before_advance 0 [] 37 (asc "GETACK") (asc "*")
    replicaAfterSet rfl

/-! ### Claim C5: write fan-out -/

/-- A master state with one live registered replica. -/
def fanoutState : ServerSt :=
  { replicaOf := none, database := [], replication := [⟨1, true⟩], offset := 0 }

/-- C5 counterexample: a `SET` processed by the actor while the requesting
client's reply queue is closed (`reply_to.send` fails) is applied to the
database but NOT fanned out: the event list is empty although a live replica
is registered, because `command_loop` skips `replicate` on reply failure. -/
theorem set_not_replicated_when_reply_send_fails :
    fanoutState.replication = [⟨1, true⟩]
      ∧ processCommand 0 [] (Command.set 31 (asc "k") (asc "v") none) false fanoutState
        = some ({ fanoutState with
                    database := [⟨asc "k", asc "v", none, 0⟩],
                    offset := 31 }, []) :=
  ⟨rfl, rfl⟩

/-- C5 (amended): for every `SET` processed by the actor whose client reply
delivery succeeds, the command's array form is enqueued exactly once to each
replica registered at that moment whose queue is still open, in roster order;
replicas whose queue send fails are dropped from the roster, and the
remaining replicas are unaffected. -/
theorem set_fanout_to_live_replicas (now : Nat) (ord : List (List Nat)) (sz : Nat)
    (k v : List Nat) (e : Option Nat) (s : ServerSt) :
    processCommand now ord (Command.set sz k v e) true s
      = some ({ s with
                  database := dbSet s.database k v e now,
                  offset := s.offset + sz,
                  replication := s.replication.filter (fun r => r.alive) },
          (s.replication.filter (fun r => r.alive)).map
            fun r => (r.addr, (Command.set sz k v e).to_value)) :=
  rfl

/-! ### Claim C6: WAIT (spec-modelled) -/

theorem foldl_addReplica (rs : List Replica) (s : ServerSt) :
    rs.foldl (fun st r => addReplica r st) s
      = { s with replication := s.replication ++ rs } := by
  induction rs generalizing s with
  | nil => rw [List.foldl_nil, List.append_nil]
  | cons r rs ih =>
    rw [List.foldl_cons, ih]
    show ({ s with replication := (s.replication ++ [r]) ++ rs }) = _
    rw [List.append_assoc]
    rfl

/-- C6: (against the spec-modelled WAIT arm, absent from `Server::handle`)
after any sequence of `AddReplica` registrations, a WAIT command is answered
with a single `Integer` value equal to the roster size — the count held by
`ReplicationManager::connected_replicas` — without touching the database or
the roster, while the offset advances by the command's size as usual. -/
theorem wait_reply_counts_connected_replicas (sz : Nat) (n t : Int) (rs : List Replica)
    (s : ServerSt) :
    handleWait sz n t (rs.foldl (fun st r => addReplica r st) s)
      = ({ s with replication := s.replication ++ rs, offset := s.offset + sz },
         [Value.int ((s.replication.length + rs.length : Nat) : Int)]) := by
  rw [foldl_addReplica]
  simp [handleWait, connected_replicas]

/-! ### Claim C7: the INFO reply body -/

/-- The body the claim describes: a `# Replication` header and the three
role/replid/offset lines, newline-separated with a trailing newline. -/
def claimedInfoBody : List Nat :=
  asc "# Replication\nrole:master\nmaster_replid:8371b4fb1155b71f4a04d3e1bc3e18c4a990aeeb\nmaster_repl_offset:0\n"

/-- All six orders in which `HashMap` iteration can yield the three lines
inserted by `Server::info` on a master. -/
def infoOrders : List (List (List Nat)) :=
  [[asc "role:master",
    asc "master_replid:8371b4fb1155b71f4a04d3e1bc3e18c4a990aeeb",
    asc "master_repl_offset:0"],
   [asc "role:master",
    asc "master_repl_offset:0",
    asc "master_replid:8371b4fb1155b71f4a04d3e1bc3e18c4a990aeeb"],
   [asc "master_replid:8371b4fb1155b71f4a04d3e1bc3e18c4a990aeeb",
    asc "role:master",
    asc "master_repl_offset:0"],
   [asc "master_replid:8371b4fb1155b71f4a04d3e1bc3e18c4a990aeeb",
    asc "master_repl_offset:0",
    asc "role:master"],
   [asc "master_repl_offset:0",
    asc "role:master",
    asc "master_replid:8371b4fb1155b71f4a04d3e1bc3e18c4a990aeeb"],
   [asc "master_repl_offset:0",
    asc "master_replid:8371b4fb1155b71f4a04d3e1bc3e18c4a990aeeb",
    asc "role:master"]]

/-- C7 counterexample: none of the six possible `HashMap` iteration orders
produces the claimed `# Replication`-headed newline blob (the bodies are all
89 bytes while the claimed blob is 102); the reply is the CRLF join of the
three lines with no header and no trailing newline. -/
theorem info_body_never_matches_claimed_blob :
    (infoOrders.map infoBody).contains claimedInfoBody = false
      ∧ infoOrders.length = 6
      ∧ serverInfo masterInfoLines
        = [Value.bulk_string_from_bytes (infoBody masterInfoLines)]
      ∧ (infoBody masterInfoLines).length = 89
      ∧ claimedInfoBody.length = 102 :=
  ⟨rfl, rfl, rfl, rfl, rfl⟩

theorem flatten_intersperse_length (sep : List Nat) :
    ∀ l : List (List Nat),
      ((l.intersperse sep).flatten).length
        = (l.map List.length).sum + sep.length * (l.length - 1)
  | [] => by simp
  | [x] => by simp
  | x :: y :: rest => by
    have ih := flatten_intersperse_length sep (y :: rest)
    rw [List.intersperse_cons_cons]
    simp only [List.flatten_cons, List.length_append, List.map_cons, List.sum_cons,
      List.length_cons, Nat.add_sub_cancel] at ih ⊢
    rw [ih, Nat.mul_succ]
    omega

/-- C7 (amended): on a master, every INFO command is answered with a single
bulk string whose body is the CRLF join, in the unspecified `HashMap`
iteration order, of exactly the three lines `role:master`,
`master_replid:8371b4fb1155b71f4a04d3e1bc3e18c4a990aeeb` and
`master_repl_offset:0` (each present, each on its own CRLF-separated line);
there is no `# Replication` header: the 89-byte body never equals the
claimed 102-byte newline blob. -/
theorem info_reply_is_crlf_join_of_lines (now sz : Nat) (secs : List (List Nat))
    (s : ServerSt) (p : List (List Nat)) (hp : p.Perm masterInfoLines) :
    Server.handle now p (Command.info sz secs) s
        = some ({ s with offset := s.offset + sz },
            [Value.bulk_string_from_bytes (infoBody p)])
      ∧ asc "role:master" ∈ p
      ∧ asc "master_replid:8371b4fb1155b71f4a04d3e1bc3e18c4a990aeeb" ∈ p
      ∧ asc "master_repl_offset:0" ∈ p
      ∧ p.length = 3
      ∧ infoBody p ≠ claimedInfoBody := by
  have hlen3 : p.length = 3 := by rw [hp.length_eq]; rfl
  have hsum : (p.map List.length).sum = 85 := by
    rw [(hp.map List.length).sum_eq]
    rfl
  have hbody : (infoBody p).length = 89 := by
    rw [infoBody, flatten_intersperse_length, hsum, hlen3]
    rfl
  refine ⟨rfl, hp.mem_iff.mpr (by decide), hp.mem_iff.mpr (by decide),
    hp.mem_iff.mpr (by decide), hlen3, ?_⟩
  intro h
  have hc := congrArg List.length h
  rw [hbody] at hc
  rw [show claimedInfoBody.length = 102 from rfl] at hc
  omega

/-- The all-default actor state. -/
def serverSt0 : ServerSt :=
  { replicaOf := none, database := [], replication := [], offset := 0 }

/-- C7 witness: the amended theorem at the insertion order itself. -/
theorem info_reply_is_crlf_join_of_lines_witness :
    (Server.handle 0 masterInfoLines (Command.info 25 []) serverSt0
        = some ({ serverSt0 with offset := serverSt0.offset + 25 },
            [Value.bulk_string_from_bytes (infoBody masterInfoLines)]))
      ∧ asc "role:master" ∈ masterInfoLines
      ∧ asc "master_replid:8371b4fb1155b71f4a04d3e1bc3e18c4a990aeeb" ∈ masterInfoLines
      ∧ asc "master_repl_offset:0" ∈ masterInfoLines
      ∧ masterInfoLines.length = 3
      ∧ infoBody masterInfoLines ≠ claimedInfoBody :=
  info_reply_is_crlf_join_of_lines 0 25 [] serverSt0 masterInfoLines (List.Perm.refl _)

/-! ### Claim C4: the reader task and PSYNC -/

/-- One message sent by the per-connection reader task
(`handle_client_reader` in `src/listener.rs`): either a `ProcessCommand`
envelope via `ServerHandle::send`, an `AddReplica` registration via
`ServerHandle::add_replica`, or an error value pushed onto the connection's
reply queue. -/
inductive ReaderAction where
  | sendProcessCommand : Command → ReaderAction
  | sendAddReplica : Nat → ReaderAction
  | pushErrorValues : List Value → ReaderAction

/-- The `Success(command)` branch of the reader task's loop: the command is
sent to the actor as a single `ProcessCommand` message with this connection's
`values_sender` — for every command alike, PSYNC included.  No other message
is produced; in particular `ServerHandle::add_replica` has no caller anywhere
in the source. -/
def readerActionsOnCommand (c : Command) : List ReaderAction :=
  [ReaderAction.sendProcessCommand c]

/-- Recognizes an `AddReplica` registration message. -/
def ReaderAction.isAddReplica : ReaderAction → Bool
  | sendAddReplica _ => true
  | _ => false

/-- The wire form of `PSYNC ? -1`. -/
def psyncWire : List Nat :=
  asc "*3\r\n$5\r\nPSYNC\r\n$1\r\n?\r\n$2\r\n-1\r\n"

/-- The value the reader recovers from `psyncWire` (30 wire bytes). -/
def psyncValue : Value :=
  Value.array 30
    [Value.bulkString 11 (asc "PSYNC"), Value.bulkString 7 (asc "?"),
     Value.bulkString 8 (asc "-1")]

/-- The parsed PSYNC command (`?` and `-1` both map to none). -/
def psyncCommand : Command :=
  Command.psync 30 none none

/-- C4: reading the concrete `PSYNC ? -1` wire bytes yields the PSYNC command,
and the reader task's actions for it are exactly one `ProcessCommand` message:
no `AddReplica` registration is sent, so the connection never joins the
replica roster — contradicting the claim that the reader additionally
registers the connection's reply-queue producer with the command actor. -/
theorem reader_psync_sends_no_add_replica :
    readValue psyncWire = some (psyncValue, [])
      ∧ from_value psyncValue = some psyncCommand
      ∧ readerActionsOnCommand psyncCommand
        = [ReaderAction.sendProcessCommand psyncCommand]
      ∧ (readerActionsOnCommand psyncCommand).any ReaderAction.isAddReplica = false :=
  ⟨rfl, rfl, rfl, rfl⟩

/-! ### Claim C8: the chunked line reader -/

/-- `ValueReader::read_line_bytes` with explicit fill boundaries: `chunks` are
the successive non-empty byte runs `fill_buf` returns.  Faithful to the
source loop: the `cr_found && bytes[0] == LF` check runs before the in-chunk
CR LF scan; `cr_found` is set when a chunk ends in CR and NEVER reset
otherwise.  Returns the total consumed byte count and the line. -/
def readLineChunks (crFound : Bool) (line : List Nat) (total : Nat) :
    List (List Nat) → Option (Nat × List Nat)
  | [] => none
  | bytes :: rest =>
    if bytes.length = 0 then none
    else if crFound ∧ bytes.head? = some 10 then some (total + 1, line.dropLast)
    else
      match findCRLF bytes with
      | some i => some (total + i + 2, line ++ bytes.take i)
      | none =>
        readLineChunks (if bytes.getLast? = some 13 then true else crFound)
          (line ++ bytes) (total + bytes.length) rest

/-- `read_line_bytes` started fresh on a chunked stream. -/
def read_line_bytes (chunks : List (List Nat)) : Option (Nat × List Nat) :=
  readLineChunks false [] 0 chunks

/-- Modelled from the spec: the line reader's contract — the bytes strictly
before the first CR LF of the (boundary-free) byte stream together with the
exact consumed count including the two terminator bytes. -/
def specLineRead (s : List Nat) : Option (Nat × List Nat) :=
  (findCRLF s).map fun i => (i + 2, s.take i)

/-- C8: the stale `cr_found` flag.  On the fill sequence
`["A\r", "BC", "\nD\r\n"]` the flag set by the first chunk's trailing CR is
still set when the third chunk starts with LF, so the reader fabricates a
CR LF pair out of the unrelated `C`/`\n` bytes: it returns line `A\rB` with 5
bytes consumed, while the stream's first real CR LF gives line `A\rBC\nD`
with 8 bytes consumed.  (The genuine two-fill straddle `["OK\r", "\nAGAIN"]`
from the source's own test is handled correctly.) -/
theorem read_line_bytes_stale_cr_flag :
    read_line_bytes [asc "A\r", asc "BC", asc "\nD\r\n"] = some (5, asc "A\rB")
      ∧ specLineRead ([asc "A\r", asc "BC", asc "\nD\r\n"].flatten)
        = some (8, asc "A\rBC\nD")
      ∧ read_line_bytes [asc "OK\r", asc "\nAGAIN"] = some (4, asc "OK")
      ∧ specLineRead ([asc "OK\r", asc "\nAGAIN"].flatten) = some (4, asc "OK")
      ∧ (5 : Nat) ≠ 8
      ∧ asc "A\rB" ≠ asc "A\rBC\nD" :=
  ⟨rfl, rfl, rfl, rfl, by decide, by decide⟩

/-! ### Claim C9: SET argument validation -/

/-- C9 counterexample: a SET array with five arguments after the command name
is accepted — `parse_set_expiry` never examines what follows the `PX` value —
although the claim says any count other than 2 or 4 is a protocol error.  The
same holds through the full dispatch `from_parts`. -/
theorem parse_set_accepts_five_args :
    parse_set 0 [asc "key", asc "value", asc "PX", asc "100", asc "junk"]
        = some (Command.set 0 (asc "key") (asc "value") (some 100))
      ∧ from_parts 0 [asc "SET", asc "key", asc "value", asc "PX", asc "100", asc "junk"]
        = some (Command.set 0 (asc "key") (asc "value") (some 100)) :=
  ⟨rfl, rfl⟩

/-- C9 (amended): a SET command array is accepted with exactly 2 arguments
after the name (no expiry), or with 4 OR MORE where the third is valid UTF-8
upper-casing to `PX` and the fourth parses as an unsigned 64-bit decimal —
arguments beyond the fourth are silently ignored.  0, 1 or 3 arguments, a
third argument other than `PX`, or a fourth that fails the `u64` parse all
yield a command-parse error (`none`), in which case no command is produced
and the database is untouched. -/
theorem parse_set_characterization :
    (∀ sz k v, parse_set sz [k, v] = some (Command.set sz k v none))
      ∧ (∀ sz args, args.length ≤ 1 → parse_set sz args = none)
      ∧ (∀ sz k v a, parse_set sz [k, v, a] = none)
      ∧ (∀ sz k v px ms rest, utf8Valid px = true → asciiUpper px = asc "PX" →
          parse_set sz (k :: v :: px :: ms :: rest)
            = (if utf8Valid ms = true then parseU64 ms else none).map
                fun n => Command.set sz k v (some n))
      ∧ (∀ sz k v px ms rest, ¬(utf8Valid px = true ∧ asciiUpper px = asc "PX") →
          parse_set sz (k :: v :: px :: ms :: rest) = none) := by
  refine ⟨?_, ?_, ?_, ?_, ?_⟩
  · intro sz k v
    rfl
  · intro sz args h
    match args with
    | [] => rfl
    | [a] => rfl
    | a :: b :: rest => simp at h
  · intro sz k v a
    by_cases hpx : utf8Valid a = true ∧ asciiUpper a = asc "PX"
    · simp [parse_set, parse_set_args, parse_set_expiry, hpx]
    · simp [parse_set, parse_set_args, hpx]
  · intro sz k v px ms rest hutf hupper
    cases hms : utf8Valid ms with
    | false =>
      simp [parse_set, parse_set_args, parse_set_expiry, hutf, hupper, hms]
    | true =>
      simp only [parse_set, parse_set_args, parse_set_expiry, hutf, hupper, hms,
        and_self, if_true, if_pos, Option.map_map]
      cases parseU64 ms <;> simp [Function.comp]
  · intro sz k v px ms rest hpx
    simp [parse_set, parse_set_args, hpx]

/-- C9 witness: the characterization applied at concrete inputs, covering the
accept, case-insensitive `PX`, bad-option, three-argument and overflow
cases. -/
theorem parse_set_characterization_witness :
    parse_set 9 [asc "a", asc "b"] = some (Command.set 9 (asc "a") (asc "b") none)
      ∧ parse_set 9 [asc "a"] = none
      ∧ parse_set 9 [asc "a", asc "b", asc "px"] = none
      ∧ parse_set 9 (asc "a" :: asc "b" :: asc "px" :: asc "100" :: [])
        = (if utf8Valid (asc "100") = true then parseU64 (asc "100") else none).map
            (fun n => Command.set 9 (asc "a") (asc "b") (some n))
      ∧ parse_set 9 (asc "a" :: asc "b" :: asc "EX" :: asc "100" :: []) = none :=
  ⟨parse_set_characterization.1 9 (asc "a") (asc "b"),
   parse_set_characterization.2.1 9 [asc "a"] (by decide),
   parse_set_characterization.2.2.1 9 (asc "a") (asc "b") (asc "px"),
   parse_set_characterization.2.2.2.1 9 (asc "a") (asc "b") (asc "px") (asc "100") []
     (by decide) (by decide),
   parse_set_characterization.2.2.2.2 9 (asc "a") (asc "b") (asc "EX") (asc "100") []
     (by decide)⟩

/-! ### Claim C10: negative length headers -/

/-- C10 counterexample: the length field is parsed with `parse::<i32>`, so a
negative decimal beyond the `i32` range (here `-3000000000 < -2^31`) is an
`Invalid` error, not a null value — "any negative integer" does not hold. -/
theorem read_negative_length_overflow_invalid :
    readValue (asc "$-3000000000\r\n") = none
      ∧ readValue (asc "*-3000000000\r\n") = none :=
  ⟨rfl, rfl⟩

/-- C10 (amended): for every negative length within the `i32` parse range
(`-2^31 ≤ n < 0`, not just `-1`), a bulk-string header yields `NullBulkString`
and an array header yields `NullArray`, consuming exactly the header line and
none of the following bytes. -/
theorem negative_length_reads_null (n : Int) (h1 : -(2 ^ 31) ≤ n) (h2 : n < 0)
    (rest : List Nat) :
    readValue (36 :: intDecBytes n ++ crlf ++ rest) = some (Value.nullBulkString, rest)
      ∧ readValue (42 :: intDecBytes n ++ crlf ++ rest) = some (Value.nullArray, rest) := by
  have hline := readLineFlat_append (intDecBytes n) rest (findCRLF_intDecBytes n)
  have hparse : parseI32 (intDecBytes n) = some n :=
    parseSignedDec_intDecBytes _ _ n h1 (by omega)
  constructor
  · show readValueFuel _ _ = _
    simp only [List.cons_append, List.append_assoc]
    rw [show (36 :: (intDecBytes n ++ (crlf ++ rest))).length + 1
        = ((intDecBytes n ++ (crlf ++ rest)).length + 1) + 1 by simp]
    simp only [readValueFuel, crlf]
    simp [hline, hparse, h2]
  · show readValueFuel _ _ = _
    simp only [List.cons_append, List.append_assoc]
    rw [show (42 :: (intDecBytes n ++ (crlf ++ rest))).length + 1
        = ((intDecBytes n ++ (crlf ++ rest)).length + 1) + 1 by simp]
    simp only [readValueFuel, crlf]
    simp [hline, hparse, h2]

/-- C10 witness: the amended theorem at `n = -2` with trailing bytes. -/
theorem negative_length_reads_null_witness :
    readValue (36 :: intDecBytes (-2) ++ crlf ++ asc "rest")
        = some (Value.nullBulkString, asc "rest")
      ∧ readValue (42 :: intDecBytes (-2) ++ crlf ++ asc "rest")
        = some (Value.nullArray, asc "rest") :=
  negative_length_reads_null (-2) (by decide) (by decide) (asc "rest")
